import Mathlib

/-!
Verification development for the event-manager core of the `circuits`
repository (`src/circuits/core/manager.py`).

The development is a shallow embedding of the dispatch/task engine of the
`Manager` class.  Machine-level Python details are rendered as follows:

* Python integers are `Int` (so `event.waitingHandlers` may go negative,
  exactly as in CPython), truthiness of an integer is `≠ 0`.
* A handler is a record carrying the metadata the manager reads
  (`names`, `channel`, `priority`, `filter`, the `event` flag) together
  with the observable outcome of invoking it once (`run`): a returned
  value, a returned generator object, or a raised exception.  A handler
  is invoked at most once per dispatch of one event, so one outcome per
  handler is a faithful rendering of the call.
* Generator objects are heap references: a natural-number id `gid`
  together with a heap `gens : Nat → List GStep` mapping each id to the
  remaining steps of the generator; `next()` on an exhausted list raises
  `StopIteration`.  Two distinct generator objects never compare equal in
  Python (identity equality), which the ids reproduce.
* `self.fire(...)` appends the fired event to the root's queue; the
  dispatch-engine model records those appends in an ordered list
  (`fired`), which is what the claims about lifecycle events observe.

The classes `Event` and `Value` and the lifecycle-event factories
(`Done.create`, `Success.create`, `Failure.create`, `Error`) live in
`values.py` / `events.py`, which are not part of the provided sources;
their fields and constructors are modelled from the spec (see the doc
comments of `ValueS`, `EventS` and the `fire*` helpers below).
-/

namespace Circuits

/-- Exception kinds a handler / tick callable / generator can raise:
`KeyboardInterrupt`, `SystemExit`, or any other exception (identified by a
numeric code standing for the `(type, value, traceback)` data). -/
inductive ExcK : Type where
  | interrupt : ExcK
  | exit : ExcK
  | other : Nat → ExcK
deriving DecidableEq

/-- The two host-fatal exception kinds that `_dispatcher` and `tick`
re-raise (`except (KeyboardInterrupt, SystemExit): raise`). -/
inductive FatalK : Type where
  | interrupt : FatalK
  | exit : FatalK
deriving DecidableEq

/-- A Python value returned by a handler or yielded by a generator,
abstracted to its identity (`data`) and its truthiness (`truthy`), which is
all `_dispatcher` inspects (`if value and handler.filter`). -/
structure Val : Type where
  truthy : Bool
  data : Nat
deriving DecidableEq

/-- The value of the local variable `value` in `_dispatcher` after a
handler call: `None`, an ordinary value, a generator object (by id), or the
`(etype, evalue, traceback)` error triple built in the `except` branch
(identified by its code). -/
inductive DVal : Type where
  | noneV : DVal
  | valV : Val → DVal
  | genV : Nat → DVal
  | errV : Nat → DVal
deriving DecidableEq

/-- Python truthiness of a `DVal`: `None` is falsy, a generator object and
the nonempty error tuple are truthy, an ordinary value carries its own
truthiness. -/
def truthyD : DVal → Bool
  | .noneV => false
  | .valV v => v.truthy
  | .genV _ => true
  | .errV _ => true

/-- One step of a generator body: what `task.next()` does.  `gen g` yields
a (reference to a) nested generator object with id `g`, `exc k` raises. -/
inductive GStep : Type where
  | nil : GStep
  | val : Val → GStep
  | gen : Nat → GStep
  | exc : ExcK → GStep
deriving DecidableEq

/-- The observable outcome of calling a handler once: a return (possibly
`None`), a returned generator object (by id), or a raised exception. -/
inductive HRes : Type where
  | ret : Option Val → HRes
  | gen : Nat → HRes
  | exc : ExcK → HRes
deriving DecidableEq

/-- Handler metadata plus one-invocation behaviour, as read by
`getHandlers`, `_sortkey` and `_dispatcher`: subscribed `names` (empty =
wildcard), an optional `channel` override (`none` renders a falsy
`handler.channel`), `priority`, the `filter` flag, the `event` flag
(`pevent`; it only selects the calling convention
`handler(event, *args, **kwargs)` vs `handler(*args, **kwargs)` and does
not change any state the claims observe), and the invocation outcome
`run`.  `hid` is the object identity. -/
structure HandlerS : Type where
  hid : Nat
  names : List String
  channel : Option String
  priority : Int
  filter : Bool
  pevent : Bool
  run : HRes
deriving DecidableEq

/-- Modelled from the spec: the `Value` class of `values.py` (not under
`src/`).  Per the spec's data model it holds the most-recent non-null
handler return (`value`), an `errors` flag, a `promise` flag set when a
handler suspended, and observers that are `inform()`ed; the model counts
deliveries of `inform(True)` in `informs`.  `eventRef` is the event the
value is bound to; `Value(event, manager, notify)` yields a fresh record
with no value, no errors, no promise and no informs. -/
structure ValueS : Type where
  eventRef : Nat
  value : DVal
  errors : Bool
  promise : Bool
  informs : Nat
deriving DecidableEq

/-- Modelled from the spec: the `Value(event, manager, notify)` constructor
allocates a fresh value cell bound to the event. -/
def freshValue (eid : Nat) : ValueS :=
  { eventRef := eid, value := .noneV, errors := false, promise := false, informs := 0 }

/-- Modelled from the spec: the mutable fields of an `Event`
(`events.py` is not under `src/`) that `manager.py` reads and writes:
`name`, `channels`, the opt-in flags `success` / `failure` / `alert_done`,
the `notify` attribute read by `fireEvent`, the counter `waitingHandlers`,
the transient `handler` attribute, and the bound `value`.  `clsName` is
`event.__class__.__name__`, used to format the synthetic
`<Name>Done` / `<Name>Success` / `<Name>Failure` names; `eid` is the
object identity of the event. -/
structure EventS : Type where
  eid : Nat
  clsName : String
  name : String
  channels : List String
  success : Bool
  failure : Bool
  alert_done : Bool
  notify : Bool
  waitingHandlers : Int
  handlerAttr : Option Nat
  value : ValueS
deriving DecidableEq

/-- An event fired (enqueued on the root) by the dispatch/task engine:
the synthetic `<Name>Failure` / `<Name>Done` / `<Name>Success` lifecycle
events (carrying the formatted name and the channels they are fired on)
and `Error` (carrying the id of the handler passed as its fourth argument,
when the call site passes a meaningful one). -/
inductive Fired : Type where
  | failureF : String → List String → Fired
  | errorF : Option Nat → Fired
  | doneF : String → List String → Fired
  | successF : String → List String → Fired
deriving DecidableEq

/-- A member of the root's `_tasks` set.  `_dispatcher` registers the
2-tuple `(event, generator)`; the nested-spawn branch of `processTask`
registers the 3-tuple `(event, child_generator, current_generator)`.
The event component is implicit: the engine state below tracks a single
event, and every task in it carries that event. -/
inductive TaskT : Type where
  | pair : Nat → TaskT
  | triple : Nat → Nat → TaskT
deriving DecidableEq

/-- State of the dispatch/task engine for one tracked event: the event's
mutable fields, the generator heap, the root's task set (in enumeration
order), the events fired so far, and the ordered log of handler
invocations (`invoked` records the handler calls made by `_dispatcher`). -/
structure DSt : Type where
  ev : EventS
  gens : Nat → List GStep
  tasks : List TaskT
  fired : List Fired
  invoked : List Nat

/-- Translation of `self.fire(Failure.create("%sFailure" % ..., event,
error), *event.channels)` (the lifecycle factory is modelled from the
spec): record a `<Name>Failure` event fired on the event's channels. -/
def fireFailureA (st : DSt) : DSt :=
  { st with fired := st.fired ++ [.failureF (st.ev.clsName ++ "Failure") st.ev.channels] }

/-- Translation of `self.fire(Error(etype, evalue, traceback, handler))`:
record an `Error` event; `h` is the handler argument when the call site
passes the failing handler (`_dispatcher`), `none` when it does not
(`processTask` passes the module-level `handler` function). -/
def fireErrorA (h : Option Nat) (st : DSt) : DSt :=
  { st with fired := st.fired ++ [.errorF h] }

/-- Translation of `event.value.inform(True)` (the `Value` class is
modelled from the spec): one more delivery to the value's observers. -/
def informA (st : DSt) : DSt :=
  { st with ev.value.informs := st.ev.value.informs + 1 }

/-- Translation of `Manager.registerTask`: `self._tasks.add(g)` (a set
add: no duplicate is created). -/
def registerTaskA (t : TaskT) (st : DSt) : DSt :=
  if t ∈ st.tasks then st else { st with tasks := st.tasks ++ [t] }

/-- Translation of `Manager.unregisterTask`:
`if g in self._tasks: self._tasks.remove(g)`. -/
def unregisterTaskA (t : TaskT) (st : DSt) : DSt :=
  { st with tasks := st.tasks.erase t }

/-- Translation of `Manager._eventDone(event, error=None)`: a no-op while
`event.waitingHandlers` is truthy (nonzero); otherwise fire
`<Name>Done(event, event.value)` on the event's channels when
`alert_done` is set, then fire `<Name>Success(event, event.value)` when
`error is None` and `event.success` is set. -/
def eventDoneA (st : DSt) (error : Option Nat) : DSt :=
  if st.ev.waitingHandlers ≠ 0 then st
  else
    let st1 :=
      if st.ev.alert_done then
        { st with fired := st.fired ++ [.doneF (st.ev.clsName ++ "Done") st.ev.channels] }
      else st
    if error = none ∧ st1.ev.success then
      { st1 with fired := st1.fired ++ [.successF (st1.ev.clsName ++ "Success") st1.ev.channels] }
    else st1

/-- Translation of `Manager.processTask(event, task, parent=None)`.
`gid` is the generator object the `task` argument refers to, `parent` the
optional parent generator.  `task.next()` is: take the head of
`st.gens gid` (advancing the heap entry), or raise `StopIteration` when
the list is exhausted.  The branches follow the source line by line:

* `StopIteration`: `unregisterTask((event, task))` (the 2-tuple — note
  that a task registered as a 3-tuple is not removed by this), re-register
  the parent when present, decrement `waitingHandlers`, and at zero
  `inform(True)` the value and run `_eventDone(event)`.
* a yielded generator: increment `waitingHandlers`, register the 3-tuple
  `(event, child, task)`, unregister the 2-tuple `(event, task)`, then
  immediately `processTask(event, child)` (depth-first priming).
* a yielded non-null value: store it into `event.value.value`.
* a yielded `None`: no further action.
* any other exception (the bare `except:` also catches the host-fatal
  kinds here): unregister the 2-tuple, store the local `value` (still
  `None`) into `event.value.value`, set `errors`, `inform(True)`, fire
  `<Name>Failure` when `event.failure` is set, fire `Error` (whose
  `handler` argument is the imported module-level `handler` function, not
  a meaningful handler — rendered as `none`).

Python recursion is rendered with explicit `fuel` (at `0` the model
returns the state unchanged; every claim is settled with enough fuel). -/
def processTaskA : Nat → Nat → Option Nat → DSt → DSt
  | 0, _, _, st => st
  | Nat.succ fuel, gid, parent, st =>
    match st.gens gid with
    | [] =>
      let st1 := unregisterTaskA (.pair gid) st
      let st2 :=
        match parent with
        | some p => registerTaskA (.pair p) st1
        | none => st1
      let st3 := { st2 with ev.waitingHandlers := st2.ev.waitingHandlers - 1 }
      if st3.ev.waitingHandlers = 0 then eventDoneA (informA st3) none else st3
    | step :: rest =>
      let st1 := { st with gens := fun k => if k = gid then rest else st.gens k }
      match step with
      | .nil => st1
      | .val v => { st1 with ev.value.value := .valV v }
      | .gen g =>
        let st2 := { st1 with ev.waitingHandlers := st1.ev.waitingHandlers + 1 }
        let st3 := registerTaskA (.triple g gid) st2
        let st4 := unregisterTaskA (.pair gid) st3
        processTaskA fuel g none st4
      | .exc _ =>
        let st2 := unregisterTaskA (.pair gid) st1
        let st3 := { st2 with ev.value.value := .noneV, ev.value.errors := true }
        let st4 := informA st3
        let st5 := if st4.ev.failure then fireFailureA st4 else st4
        fireErrorA none st5

/-- Result of one handler invocation inside `_dispatcher`'s loop:
continue with updated state, error and the local `value`, or propagate a
host-fatal exception (carrying the state at the raise). -/
inductive StepOut : Type where
  | ok : DSt → Option Nat → DVal → StepOut
  | fatal : FatalK → DSt → StepOut


/-- The opening of one `_dispatcher` loop iteration: `event.handler =
handler`, and the call of the handler (logged in `invoked`). -/
def stepPre (h : HandlerS) (st : DSt) : DSt :=
  { st with ev.handlerAttr := some h.hid, invoked := st.invoked ++ [h.hid] }

/-- One iteration of `_dispatcher`'s handler loop up to and including the
`try`/`except`: set `event.handler`, invoke the handler (logged in
`invoked`), re-raise `KeyboardInterrupt` / `SystemExit`, and for any other
exception set `event.value.errors`, let `value` be the error triple, fire
`<Name>Failure` when `event.failure` is set, and fire
`Error(etype, evalue, traceback, handler)`. -/
def dispatchStep (h : HandlerS) (st : DSt) (error : Option Nat) : StepOut :=
  let st0 := stepPre h st
  match h.run with
  | .exc .interrupt => .fatal .interrupt st0
  | .exc .exit => .fatal .exit st0
  | .exc (.other n) =>
    let st1 := { st0 with ev.value.errors := true }
    let st2 := if st1.ev.failure then fireFailureA st1 else st1
    .ok (fireErrorA (some h.hid) st2) (some n) (.errV n)
  | .ret none => .ok st0 error .noneV
  | .ret (some v) => .ok st0 error (.valV v)
  | .gen g => .ok st0 error (.genV g)

/-- The tail of one loop iteration of `_dispatcher` (lines after the
`try`/`except`): a generator return increments `waitingHandlers`, sets the
value's `promise` and registers the task `(event, value)`; a non-null
value is stored into `event.value.value`. -/
def postStep (v : DVal) (st : DSt) : DSt :=
  match v with
  | .genV g =>
    registerTaskA (.pair g) { st with ev.waitingHandlers := st.ev.waitingHandlers + 1,
                                      ev.value.promise := true }
  | .noneV => st
  | x => { st with ev.value.value := x }

/-- Result of the dispatcher loop: the state and final `error` on normal
exit (including a `filter` break), or a propagated host-fatal
exception. -/
inductive LoopOut : Type where
  | done : DSt → Option Nat → LoopOut
  | fatal : FatalK → DSt → LoopOut


/-- The handler loop of `Manager._dispatcher` over the ordered handler
list: invoke each handler, process its result, and
`if value and handler.filter: break`. -/
def dispatchLoop : List HandlerS → DSt → Option Nat → LoopOut
  | [], st, error => .done st error
  | h :: rest, st, error =>
    match dispatchStep h st error with
    | .fatal k s => .fatal k s
    | .ok s err v =>
      let s1 := postStep v s
      if truthyD v && h.filter then .done s1 err
      else dispatchLoop rest s1 err

/-- Result of a whole `_dispatcher` call. -/
inductive DOut : Type where
  | done : DSt → DOut
  | fatal : FatalK → DSt → DOut


/-- `Manager._dispatcher` after handler resolution: run the handler loop
with `value = None`, `error = None`, then call `_eventDone(event, error)`
(skipped when a host-fatal exception propagates). -/
def dispatchFull (hs : List HandlerS) (st : DSt) : DOut :=
  match dispatchLoop hs st none with
  | .fatal k s => .fatal k s
  | .done s error => .done (eventDoneA s error)

/-!
Run-loop model.  `Manager.tick` / `Manager.stop` / `Manager._flush`
operate on the root's tick set, task set and queue.  At this level a queue
entry is opaque data, a tick callable is abstracted by its observable
behaviour in one call (the events it fires plus an optionally raised
exception), and a scheduled task is abstracted by the observable effect of
one `processTask` call on the loop state (the events it fires and whether
it stays registered); the full task semantics is `processTaskA` above.
The `log` field records the loop's actions in order, and `firedAll` keeps
the monotone history of every event ever fired (the queue itself is
emptied by `_flush`).
-/

/-- An entry of the root's `_queue`: an `Error(...)` fired for a failing
tick callable, the `Stopped(self)` event fired by `stop`, or any other
event (opaque). -/
inductive QEnt : Type where
  | errorQ : Nat → QEnt
  | stoppedQ : QEnt
  | plainQ : Nat → QEnt
deriving DecidableEq

/-- An action of the run loop, in execution order: calling one tick
callable, advancing one task via `processTask`, the queue swap of
`_flush`, dispatching one dequeued entry, or the idle
`sleep(TIMEOUT)`. -/
inductive Act : Type where
  | runTick : Nat → Act
  | stepTask : Nat → Act
  | flushQ : Act
  | dispatchQ : QEnt → Act
  | sleepT : Act
deriving DecidableEq

/-- A member of the root's `_ticks` set, abstracted by one call's
observable behaviour: the events it fires (`enq`) and the exception it
then raises, if any. -/
structure TickF : Type where
  tid : Nat
  enq : List QEnt
  raises : Option ExcK
deriving DecidableEq

/-- A member of the root's `_tasks` set as seen by the run loop,
abstracted by the observable effect of one `processTask` call: the events
it fires (`enq`) and whether it remains registered (`survive`). -/
structure BTask : Type where
  bid : Nat
  enq : List QEnt
  survive : Bool
deriving DecidableEq

/-- Run-loop state of a root manager: tick set, task set, queue, the
`_running` flag, the background `_task` handle, the ordered action log and
the monotone history of fired events. -/
structure BSt : Type where
  ticks : List TickF
  tasks : List BTask
  queue : List QEnt
  running : Bool
  taskH : Option Nat
  log : List Act
  firedAll : List QEnt
deriving DecidableEq

/-- Result of a run-loop operation: normal return, or a propagated
host-fatal exception. -/
inductive BOut : Type where
  | ok : BSt → BOut
  | fatal : FatalK → BSt → BOut
deriving DecidableEq

/-- `self.fire(e)` as the run loop sees it: append `e` to the root's
queue (and to the monotone history). -/
def fireB (q : QEnt) (st : BSt) : BSt :=
  { st with queue := st.queue ++ [q], firedAll := st.firedAll ++ [q] }

/-- One iteration of `tick`'s first loop: call the tick callable `f`
(logged), re-raise `KeyboardInterrupt` / `SystemExit`, and fire
`Error(etype, evalue, format_tb(etraceback))` for any other exception. -/
def runTickOne (f : TickF) (st : BSt) : BOut :=
  let st1 := { st with log := st.log ++ [.runTick f.tid] }
  let st2 := f.enq.foldl (fun s q => fireB q s) st1
  match f.raises with
  | none => .ok st2
  | some .interrupt => .fatal .interrupt st2
  | some .exit => .fatal .exit st2
  | some (.other n) => .ok (fireB (.errorQ n) st2)

/-- The first phase of `tick`: `for f in self._ticks.copy(): ...` over the
snapshot of the tick set. -/
def runTicksPhase : List TickF → BSt → BOut
  | [], st => .ok st
  | f :: r, st =>
    match runTickOne f st with
    | .fatal k s => .fatal k s
    | .ok s => runTicksPhase r s

/-- One iteration of `tick`'s second loop: `self.processTask(*task)`,
abstracted to the task's observable effect: log the step, fire its
events, and drop it from the task set when it does not survive. -/
def stepTaskB (t : BTask) (st : BSt) : BSt :=
  let st1 := { st with log := st.log ++ [.stepTask t.bid] }
  let st2 := t.enq.foldl (fun s q => fireB q s) st1
  if t.survive then st2 else { st2 with tasks := st2.tasks.erase t }

/-- The second phase of `tick`:
`for task in self._tasks.copy(): self.processTask(*task)` over the
snapshot of the task set. -/
def runTasksPhase : List BTask → BSt → BSt
  | [], st => st
  | t :: r, st => runTasksPhase r (stepTaskB t st)

/-- `Manager._flush`: swap the queue for a fresh empty one and dispatch
each entry of the old queue in order (the dispatch of each entry is
logged; its own fires are the dispatch engine's domain). -/
def flushB (st : BSt) : BSt :=
  let q := st.queue
  { st with queue := [], log := st.log ++ [.flushQ] ++ q.map Act.dispatchQ }

/-- `TIMEOUT = 0.01  # 10ms timeout when no tick functions to process`
(in seconds). -/
def TIMEOUT : ℚ := 1 / 100

/-- `Manager.tick`: run every tick callable (re-raising host-fatal
exceptions), advance every task registered at the start of the call, then
`if self: self.flush()` — flush when the queue is non-empty — `else:
sleep(TIMEOUT)`. -/
def tickB (st : BSt) : BOut :=
  match runTicksPhase st.ticks st with
  | .fatal k s => .fatal k s
  | .ok s1 =>
    let s2 := runTasksPhase s1.tasks s1
    if s2.queue.isEmpty then .ok { s2 with log := s2.log ++ [.sleepT] }
    else .ok (flushB s2)

/-- `Manager.stop`: return immediately when not running; otherwise set
`_running = False`, fire `Stopped(self)`, call `tick()` three times, and
clear the background `_task` handle. -/
def stopB (st : BSt) : BOut :=
  if st.running then
    match tickB (fireB .stoppedQ { st with running := false }) with
    | .fatal k s => .fatal k s
    | .ok s1 =>
      match tickB s1 with
      | .fatal k s => .fatal k s
      | .ok s2 =>
        match tickB s2 with
        | .fatal k s => .fatal k s
        | .ok s3 => .ok { s3 with taskH := none }
  else .ok st

/-!
Fire model.  `Manager.fireEvent(event, *channels)` resolves the effective
channel tuple, allocates a fresh `Value`, appends one `(event, channels)`
entry to the root's queue, and returns the value.  The state below keeps
the firing component's `channel` attribute (absent on a bare `Manager`,
hence `Option`), the firing component's own queue and the root's queue as
separate lists (they are the same object only when the caller is the
root), and the log of handler invocations, which `fireEvent` never
touches.
-/

/-- State visible to a `fireEvent` call on a (possibly non-root)
component. -/
structure FireSt : Type where
  selfChannel : Option String
  selfQueue : List (Nat × List String)
  rootQueue : List (Nat × List String)
  invoked : List Nat
deriving DecidableEq

/-- `Manager.fireEvent(event, *channels)` (with `Manager._fire` inlined:
`self.root._queue.append((event, channels))`): when no explicit channels
are given, take `event.channels or (getattr(self, "channel", "*"),) or
("*",)` — the last alternative is kept from the source although a 1-tuple
is always truthy — then set `event.channels`, bind a fresh `Value` (the
`Value` constructor is modelled from the spec) and append
`(event, channels)` to the root's queue.  Returns the updated event (whose
`value` field is what the caller receives) and state. -/
def fireEventM (ev : EventS) (chans : List String) (st : FireSt) : EventS × FireSt :=
  let fallback := [st.selfChannel.getD "*"]
  let channels :=
    if chans.isEmpty then
      if ev.channels.isEmpty then
        if fallback.isEmpty then ["*"] else fallback
      else ev.channels
    else chans
  let ev1 := { ev with channels := channels, value := freshValue ev.eid }
  (ev1, { st with rootQueue := st.rootQueue ++ [(ev.eid, channels)] })

/-!
Handler resolution, cache and registration model.  A component tree node
carries its `channel` attribute, its `_globals` set, its `_handlers`
buckets (an association list from event name to handler set; the
name-wildcard bucket is the entry with key `"*"`), the `_queue` of a
not-yet-attached component, the node's own tick callables (the
`getmembers` introspection of `getTicks` is rendered as an explicit list
of tick ids), and its children.  Python sets are rendered as lists whose
enumeration order is arbitrary; set union deduplicates.  The
instance-targeted branch of `getHandlers` (`channel` being a `Manager`
rather than a string) is outside the modelled fragment: every claim below
quantifies over string channels only.  The `setattr` / `delattr` attribute
binding of `addHandler` / `removeHandler` has no bearing on resolution and
is not modelled.
-/

/-- A node of the component tree. -/
inductive CompNode : Type where
  | node : Option String → List HandlerS → List (String × List HandlerS) →
           List Nat → List Nat → List CompNode → CompNode

/-- The `channel` attribute of the node's component, when set. -/
def CompNode.chanAttr : CompNode → Option String
  | .node c _ _ _ _ _ => c

/-- The node's `_globals` set. -/
def CompNode.globals : CompNode → List HandlerS
  | .node _ g _ _ _ _ => g

/-- The node's `_handlers` buckets. -/
def CompNode.buckets : CompNode → List (String × List HandlerS)
  | .node _ _ b _ _ _ => b

/-- The node's `_queue` (events queued before attaching). -/
def CompNode.pending : CompNode → List Nat
  | .node _ _ _ p _ _ => p

/-- The node's own tick callables (ids). -/
def CompNode.ticksOwn : CompNode → List Nat
  | .node _ _ _ _ t _ => t

/-- The node's registered children (`self.components`). -/
def CompNode.children : CompNode → List CompNode
  | .node _ _ _ _ _ cs => cs

/-- Set union on handler lists: the left list followed by the members of
the right list not already present (Python `set.update`). -/
def hUnion (a b : List HandlerS) : List HandlerS :=
  a ++ b.filter (fun h => decide (h ∉ a))

/-- Bucket lookup with the empty set as default
(`self._handlers.get(k, set())`). -/
def bucketGet (bs : List (String × List HandlerS)) (k : String) : List HandlerS :=
  (bs.lookup k).getD []

mutual

/-- `Manager.getHandlers(event, channel)` for a string channel, at one
node: chain the name-wildcard bucket (`"*"`) with the bucket for
`event.name` when present; keep each handler whose effective channel
(`handler.channel` when truthy, else the owning component's `channel`
attribute, else none) matches — requested channel `"*"`, or effective
channel `"*"` or equal to the requested one; add all of `_globals`
unconditionally; and union the results of the children. -/
def getHandlersN (name channel : String) : CompNode → List HandlerS
  | .node chanAttr globals buckets _ _ children =>
    let chainL := bucketGet buckets "*" ++
      (if (buckets.lookup name).isSome then bucketGet buckets name else [])
    let own := chainL.filter (fun h =>
      let hch : Option String := match h.channel with
        | some c => some c
        | none => chanAttr
      decide (channel = "*") || decide (hch = some "*") || decide (hch = some channel))
    hUnion (hUnion own.dedup globals) (getHandlersChildren name channel children)

/-- Union of `getHandlers` over a list of children
(`for c in self.components.copy(): handlers.update(c.getHandlers(...))`). -/
def getHandlersChildren (name channel : String) : List CompNode → List HandlerS
  | [] => []
  | c :: cs => hUnion (getHandlersN name channel c) (getHandlersChildren name channel cs)

end

mutual

/-- `Manager.getTicks`: the node's own tick callables plus those of all
children, as a set. -/
def getTicksN : CompNode → List Nat
  | .node _ _ _ _ ticksOwn children =>
    ticksOwn ++ (getTicksChildren children).filter (fun t => decide (t ∉ ticksOwn))

/-- Union of `getTicks` over children. -/
def getTicksChildren : List CompNode → List Nat
  | [] => []
  | c :: cs =>
    let a := getTicksN c
    a ++ (getTicksChildren cs).filter (fun t => decide (t ∉ a))

end

/-- `_sortkey(handler) = (handler.priority, handler.filter)`, a point of
the lexicographic order on `Int × Bool` (`False < True`, as in Python). -/
def sortkey (h : HandlerS) : Lex (Int × Bool) :=
  toLex (h.priority, h.filter)

/-- Boolean strict comparison of sort keys:
`_sortkey(a) < _sortkey(b)` in Python's tuple order (priority first,
then `filter` with `False < True`). -/
def keyLtB (a b : HandlerS) : Bool :=
  decide (a.priority < b.priority) ||
    (decide (a.priority = b.priority) && (!a.filter && b.filter))

/-- Stable insertion into a descending-sorted list: the new element goes
after every element whose key is greater than or equal to its own. -/
def insH (a : HandlerS) : List HandlerS → List HandlerS
  | [] => [a]
  | b :: r => if keyLtB b a then a :: b :: r else b :: insH a r

/-- `sorted(chain(*h), key=_sortkey, reverse=True)` applied to an
enumeration of the handler set.  Python's `sorted` is stable, and a stable
descending sort is extensionally unique, so stable insertion sort (which
is structurally recursive, hence kernel-computable) renders it
faithfully: elements are ordered by descending `_sortkey`, and elements
with equal keys keep the enumeration order. -/
def sortH (l : List HandlerS) : List HandlerS :=
  l.foldl (fun acc a => insH a acc) []

/-- The root's `_cache`: an association list from `(event.name, channels)`
to the sorted handler list. -/
abbrev CacheT : Type := List ((String × List String) × List HandlerS)

/-- The lookup-or-compute step of `Manager._dispatcher` (lines 345-350):
on a hit return the cached list, on a miss sort the chained per-channel
`getHandlers` results and memoise them. -/
def resolveHandlers (root : CompNode) (cache : CacheT) (name : String)
    (channels : List String) : List HandlerS × CacheT :=
  match List.lookup (name, channels) cache with
  | some hs => (hs, cache)
  | none =>
    let hs := sortH (channels.flatMap (fun c => getHandlersN name c root))
    (hs, cache ++ [((name, channels), hs)])

/-- Replace the node's buckets. -/
def CompNode.setBuckets : CompNode → List (String × List HandlerS) → CompNode
  | .node c g _ p t cs, b => .node c g b p t cs

/-- `self._handlers.setdefault(k, set()).add(h)`. -/
def bucketAdd (bs : List (String × List HandlerS)) (k : String) (h : HandlerS) :
    List (String × List HandlerS) :=
  match bs with
  | [] => [(k, [h])]
  | (k', v) :: rest =>
    if k' = k then (k', if h ∈ v then v else v ++ [h]) :: rest
    else (k', v) :: bucketAdd rest k h

/-- Replace the value stored under key `k` (the key is present at call
sites). -/
def bucketSet (bs : List (String × List HandlerS)) (k : String)
    (v : List HandlerS) : List (String × List HandlerS) :=
  match bs with
  | [] => []
  | (k', v') :: rest =>
    if k' = k then (k', v) :: rest else (k', v') :: bucketSet rest k v

/-- `del self._handlers[k]`. -/
def bucketDel (bs : List (String × List HandlerS)) (k : String) :
    List (String × List HandlerS) :=
  bs.filter (fun kv => decide (kv.1 ≠ k))

/-- The registry mutation of `Manager.addHandler` (the `setattr` binding
is not modelled): a handler with no names and channel `"*"` joins
`_globals`; one with no names joins the `"*"` bucket; otherwise it joins
the bucket of each of its names. -/
def addH (h : HandlerS) : CompNode → CompNode
  | .node c g b p t cs =>
    if h.names.isEmpty ∧ h.channel = some "*" then
      .node c (if h ∈ g then g else g ++ [h]) b p t cs
    else if h.names.isEmpty then
      .node c g (bucketAdd b "*" h) p t cs
    else
      .node c g (h.names.foldl (fun bb nm => bucketAdd bb nm h) b) p t cs

/-- The per-name removal loop of `Manager.removeHandler`:
`for name in names: self._handlers[name].remove(method)`, deleting a
bucket that becomes empty.  A missing bucket or a bucket not containing
the handler raises `KeyError`, which aborts the loop; the returned flag is
`false` in that case and the returned node keeps the mutations of the
names already processed (exactly what the raised exception leaves
behind). -/
def removeNames (m : HandlerS) : List String → CompNode → CompNode × Bool
  | [], n => (n, true)
  | nm :: rest, n =>
    match n.buckets.lookup nm with
    | none => (n, false)
    | some bl =>
      if m ∈ bl then
        let bl' := bl.erase m
        let b' := if bl'.isEmpty then bucketDel n.buckets nm else bucketSet n.buckets nm bl'
        removeNames m rest (n.setBuckets b')
      else (n, false)

/-- Root-owned mutable state of a component tree: the tree itself, the
root's `_cache`, `_queue` and `_ticks`.  Operations address the node they
are invoked on by its path (child indices) from the root. -/
structure TreeSt : Type where
  root : CompNode
  cache : CacheT
  rootQueue : List Nat
  rootTicks : List Nat

/-- Apply a node transformation at the end of a path. -/
def updateAt : List Nat → (CompNode → CompNode) → CompNode → CompNode
  | [], f, n => f n
  | i :: rest, f, .node c g b p t cs =>
    match cs.get? i with
    | some ci => .node c g b p t (cs.set i (updateAt rest f ci))
    | none => .node c g b p t cs

/-- Apply a flagged node transformation at the end of a path (`false` on a
dangling path — a model artifact, claims use valid paths). -/
def updateAtR : List Nat → (CompNode → CompNode × Bool) → CompNode → CompNode × Bool
  | [], f, n => f n
  | i :: rest, f, .node c g b p t cs =>
    match cs.get? i with
    | some ci =>
      let r := updateAtR rest f ci
      (.node c g b p t (cs.set i r.1), r.2)
    | none => (.node c g b p t cs, false)

/-- `Manager.addHandler(f)` called on the node at `path`: mutate that
node's registry and `self.root._cache.clear()`. -/
def addHandlerAt (path : List Nat) (h : HandlerS) (st : TreeSt) : TreeSt :=
  { st with root := updateAt path (addH h) st.root, cache := [] }

/-- `Manager.removeHandler(f, event)` called on the node at `path`:
run the removal loop; only when it completes does control reach
`self.root._cache.clear()` — a `KeyError` leaves the cache as it was
(second component `false`). -/
def removeHandlerAt (path : List Nat) (m : HandlerS) (eventArg : Option String)
    (st : TreeSt) : TreeSt × Bool :=
  let names := match eventArg with | none => m.names | some e => [e]
  let r := updateAtR path (removeNames m names) st.root
  ({ st with root := r.1, cache := if r.2 then [] else st.cache }, r.2)

/-- Drop a pending queue (used when a child is attached:
`component._queue.clear()`). -/
def clearPending : CompNode → CompNode
  | .node c g b _ t cs => .node c g b [] t cs

/-- `self.components.add(component)`. -/
def addChild (child : CompNode) : CompNode → CompNode
  | .node c g b p t cs => .node c g b p t (cs ++ [child])

/-- `Manager.registerChild(component)` called on the node at `path`: add
the child, extend the root's queue with the child's queued events, clear
the child's queue, clear the root's cache and recompute the root's
ticks. -/
def registerChildAt (path : List Nat) (child : CompNode) (st : TreeSt) : TreeSt :=
  let root' := updateAt path (addChild (clearPending child)) st.root
  { root := root', cache := [],
    rootQueue := st.rootQueue ++ child.pending, rootTicks := getTicksN root' }

/-- `self.components.remove(component)`: remove the `i`-th child; a
component not present raises `KeyError` (rendered as an out-of-range
index), aborting before any mutation. -/
def removeChildIdx (i : Nat) : CompNode → CompNode × Bool
  | .node c g b p t cs =>
    if i < cs.length then (.node c g b p t (cs.eraseIdx i), true)
    else (.node c g b p t cs, false)

/-- `Manager.unregisterChild(component)` called on the node at `path`:
remove the child, then clear the root's cache and recompute the root's
ticks; a `KeyError` aborts before either happens. -/
def unregisterChildAt (path : List Nat) (i : Nat) (st : TreeSt) : TreeSt × Bool :=
  let r := updateAtR path (removeChildIdx i) st.root
  if r.2 then
    ({ root := r.1, cache := [], rootQueue := st.rootQueue,
       rootTicks := getTicksN r.1 }, true)
  else ({ st with root := r.1 }, false)

/-!
Auxiliary observations and concrete scenario states used by the theorems
below.
-/

/-- The `value` the local variable of `_dispatcher` holds after invoking a
handler whose call did not propagate (for the host-fatal outcomes, which
do propagate, the result is immaterial and rendered as `None`). -/
def runVal : HRes → DVal
  | .ret none => .noneV
  | .ret (some v) => .valV v
  | .gen g => .genV g
  | .exc (.other n) => .errV n
  | .exc .interrupt => .noneV
  | .exc .exit => .noneV

/-- Whether invoking a handler raises a host-fatal exception. -/
def fatalRun : HRes → Bool
  | .exc .interrupt => true
  | .exc .exit => true
  | _ => false

/-- The number of members of the root's task set whose tuple carries the
tracked event — in the single-event engine state, every registered
task. -/
def eventTaskCount (st : DSt) : Nat :=
  st.tasks.length

/-- The invocation log of a dispatch outcome. -/
def outInvoked : DOut → List Nat
  | .done s => s.invoked
  | .fatal _ s => s.invoked

/-- An action of `tick` that terminates the call: the queue flush or the
idle sleep (each `tick()` performs exactly one of the two). -/
def isTerm : Act → Bool
  | .flushQ => true
  | .sleepT => true
  | _ => false

/-- The log entries of the tick-callable phase. -/
def ticksLogD (fs : List TickF) : List Act :=
  fs.map (fun f => .runTick f.tid)

/-- The queue entries one tick callable contributes: its own fires plus
the `Error` event fired when it raises a non-fatal exception. -/
def tickEnqD (f : TickF) : List QEnt :=
  f.enq ++ (match f.raises with | some (.other n) => [.errorQ n] | _ => [])

/-- The queue entries contributed by the whole tick-callable phase. -/
def ticksEnqD (fs : List TickF) : List QEnt :=
  fs.flatMap tickEnqD

/-- The log entries of the task phase. -/
def tasksLogD (ts : List BTask) : List Act :=
  ts.map (fun t => .stepTask t.bid)

/-- The queue entries contributed by the task phase. -/
def tasksEnqD (ts : List BTask) : List QEnt :=
  ts.flatMap (fun t => t.enq)

/-- The queue contents at the `if self:` check of `tick`: the entries
present at the start of the call plus everything the tick callables and
the task steps fired. -/
def queueAtCheck (st : BSt) : List QEnt :=
  st.queue ++ ticksEnqD st.ticks ++ tasksEnqD st.tasks

/-- A generic event record used by the concrete scenarios: no opt-in
flags, no waiting handlers, a fresh value. -/
def mkEv (clsName name : String) : EventS :=
  { eid := 0, clsName := clsName, name := name, channels := ["*"],
    success := false, failure := false, alert_done := false, notify := false,
    waitingHandlers := 0, handlerAttr := none, value := freshValue 0 }

/-- Scenario (C1): one top-level task, registered by the dispatcher for
the tracked event, whose generator raises on its first `next()`. -/
def stC1 : DSt :=
  { ev := { mkEv "Job" "job" with waitingHandlers := 1 },
    gens := fun _ => [.exc (.other 7)], tasks := [.pair 0], fired := [],
    invoked := [] }

/-- Scenario (C1): the state after `processTask` advances that task. -/
def stC1a : DSt :=
  processTaskA 9 0 none stC1

/-- Scenario (C1): one registered task whose generator yields `None`. -/
def stW2 : DSt :=
  { ev := { mkEv "Job" "job" with waitingHandlers := 1 },
    gens := fun _ => [.nil], tasks := [.pair 0], fired := [], invoked := [] }

/-- Scenario (C1): one registered task whose generator yields a value. -/
def stW3 : DSt :=
  { ev := { mkEv "Job" "job" with waitingHandlers := 1 },
    gens := fun _ => [.val { truthy := true, data := 1 }], tasks := [.pair 0],
    fired := [], invoked := [] }

/-- Scenario (C1): one registered task whose generator is exhausted. -/
def stW4 : DSt :=
  { ev := { mkEv "Job" "job" with waitingHandlers := 1 },
    gens := fun _ => [], tasks := [.pair 0], fired := [], invoked := [] }

/-- Scenario (C1): one registered task whose generator yields a nested
generator (object id 1) that yields `None`. -/
def stW5 : DSt :=
  { ev := { mkEv "Job" "job" with waitingHandlers := 1 },
    gens := fun n => if n = 0 then [.gen 1] else [.nil], tasks := [.pair 0],
    fired := [], invoked := [] }

/-- Scenario (C4): an event with no preset channels. -/
def evW4a : EventS :=
  { mkEv "Ping" "ping" with channels := [] }

/-- Scenario (C4): an event whose `channels` attribute is preset. -/
def evW4b : EventS :=
  { mkEv "Ping" "ping" with channels := ["e1", "e2"] }

/-- Scenario (C4): a firing component whose `channel` attribute is
`"x"`. -/
def stF1 : FireSt :=
  { selfChannel := some "x", selfQueue := [(9, ["q"])], rootQueue := [],
    invoked := [] }

/-- Scenario (C4): a firing component without a `channel` attribute. -/
def stF2 : FireSt :=
  { selfChannel := none, selfQueue := [], rootQueue := [(3, ["r"])],
    invoked := [4] }

/-- Scenario (C2): a handler that raises an ordinary exception. -/
def hRaise : HandlerS :=
  { hid := 1, names := [], channel := none, priority := 0, filter := false,
    pevent := false, run := .exc (.other 3) }

/-- Scenario (C2): a handler that returns a generator (object id 5) whose
body is immediately exhausted. -/
def hGen : HandlerS :=
  { hid := 2, names := [], channel := none, priority := 0, filter := false,
    pevent := false, run := .gen 5 }

/-- Scenario (C2): a dispatch of a `Boom` event that opted into success
alerts, with an erroring handler followed by a suspending one. -/
def stC2 : DSt :=
  { ev := { mkEv "Boom" "boom" with success := true },
    gens := fun _ => [], tasks := [], fired := [], invoked := [] }

/-- Scenario (C2): the state after the dispatch cycle. -/
def stC2a : DSt :=
  match dispatchFull [hRaise, hGen] stC2 with
  | .done s => s
  | .fatal _ s => s

/-- Scenario (C2): the state after the next tick advances the registered
task, which exhausts immediately. -/
def stC2b : DSt :=
  processTaskA 9 5 none stC2a

/-- Scenario (C3): a run-loop state with one (side-effect-free) tick
callable, no tasks and an empty queue. -/
def stC3 : BSt :=
  { ticks := [{ tid := 0, enq := [], raises := none }], tasks := [],
    queue := [], running := true, taskH := none, log := [], firedAll := [] }

/-- Scenario (C3): the state `tick()` leaves behind from `stC3`: the tick
callable ran, and the loop slept although the tick set is non-empty. -/
def stC3r : BSt :=
  { stC3 with log := [Act.runTick 0, Act.sleepT] }

/-- Scenario (C5): a handler raising `KeyboardInterrupt`. -/
def hIW : HandlerS :=
  { hid := 11, names := [], channel := none, priority := 0, filter := false,
    pevent := false, run := .exc .interrupt }

/-- Scenario (C5): a handler raising `SystemExit`. -/
def hXW : HandlerS :=
  { hid := 12, names := [], channel := none, priority := 0, filter := false,
    pevent := false, run := .exc .exit }

/-- Scenario (C5): a tick callable that fires one event and then raises
`KeyboardInterrupt`. -/
def tickFW : TickF :=
  { tid := 1, enq := [.plainQ 0], raises := some .interrupt }

/-- Scenario (C9): a running manager with empty collections and a live
background task handle. -/
def stW9 : BSt :=
  { ticks := [], tasks := [], queue := [], running := true, taskH := some 1,
    log := [], firedAll := [] }

/-- Scenario (C9): the state `stop()` leaves behind from `stW9`. -/
def stW9r : BSt :=
  { ticks := [], tasks := [], queue := [], running := false, taskH := none,
    log := [Act.flushQ, Act.dispatchQ .stoppedQ, Act.sleepT, Act.sleepT],
    firedAll := [.stoppedQ] }

/-- Scenario (C6): two handlers with equal `(priority, filter)` keys and
distinct identities. -/
def h6a : HandlerS :=
  { hid := 1, names := [], channel := none, priority := 0, filter := false,
    pevent := false, run := .ret none }

/-- Scenario (C6): the second of the two equal-key handlers. -/
def h6b : HandlerS :=
  { hid := 2, names := [], channel := none, priority := 0, filter := false,
    pevent := false, run := .ret none }

/-- Scenario (C6): a dispatch state for the two equal-key handlers. -/
def st6 : DSt :=
  { ev := mkEv "Ping" "ping", gens := fun _ => [], tasks := [], fired := [],
    invoked := [] }

/-- Scenario (C7): a filter handler returning a truthy value. -/
def hfW : HandlerS :=
  { hid := 7, names := [], channel := none, priority := 10, filter := true,
    pevent := false, run := .ret (some { truthy := true, data := 5 }) }

/-- Scenario (C10): a filter handler that raises an ordinary exception
and returns nothing. -/
def hfR : HandlerS :=
  { hid := 8, names := [], channel := none, priority := 10, filter := true,
    pevent := false, run := .exc (.other 4) }

/-- Scenario (C8): a handler subscribed to the two event names `"a"` and
`"b"`. -/
def hC8 : HandlerS :=
  { hid := 1, names := ["a", "b"], channel := none, priority := 0,
    filter := false, pevent := false, run := .ret none }

/-- Scenario (C8): a root whose registry holds `hC8` only under `"a"`
(the `"b"` bucket was already removed by an earlier
`removeHandler(hC8, "b")`, which cleared the cache at that time). -/
def rootC8 : CompNode :=
  .node none [] [("a", [hC8])] [] [] []

/-- Scenario (C8): the tree state with a repopulated cache entry for
`("a", ("*",))` computed from `rootC8`. -/
def stC8 : TreeSt :=
  { root := rootC8, cache := [(("a", ["*"]), [hC8])], rootQueue := [],
    rootTicks := [] }

/-- Scenario (C8): the result of the failing `removeHandler(hC8)` call. -/
def stC8a : TreeSt × Bool :=
  removeHandlerAt [] hC8 none stC8

/-- Scenario (C8): the tree state of `rootC8` with an empty cache. -/
def stC8e : TreeSt :=
  { root := rootC8, cache := [], rootQueue := [], rootTicks := [] }

/-!
Theorems.  Shared helper lemmas come first; each claim is then settled by
one named theorem (plus, where required, a witness and a
counterexample).
-/

/-- Helper: a handler whose invocation does not raise a host-fatal
exception makes the loop continue with the value `runVal h.run`. -/
theorem dispatchStep_ok (h : HandlerS) (st : DSt) (err : Option Nat)
    (hnf : fatalRun h.run = false) :
    ∃ s e, dispatchStep h st err = .ok s e (runVal h.run) := by
  rcases hr : h.run with (_ | v) | g | (_ | _ | n) <;>
    simp_all [dispatchStep, runVal, fatalRun]

/-- Helper: once the loop reaches a filter handler whose resulting value
is truthy, the handlers after it are irrelevant: the loop computes the
same outcome as if the list ended at that handler. -/
theorem dispatchLoop_break_of_filter (hf : HandlerS)
    (hfil : hf.filter = true) (htr : truthyD (runVal hf.run) = true) :
    ∀ (pre post : List HandlerS) (st : DSt) (err : Option Nat),
      dispatchLoop (pre ++ hf :: post) st err = dispatchLoop (pre ++ [hf]) st err := by
  intro pre
  induction pre with
  | nil =>
    intro post st err
    rcases hr : hf.run with (_ | v) | g | (_ | _ | n) <;>
      simp_all [dispatchLoop, dispatchStep, truthyD, runVal]
  | cons h rest ih =>
    intro post st err
    simp only [List.cons_append, dispatchLoop]
    cases dispatchStep h st err with
    | fatal k s => rfl
    | ok s e v =>
      by_cases hb : (truthyD v && h.filter) = true
      · simp only [hb, if_true]
      · simp only [hb, if_false]
        exact ih post (postStep v s) e

/-- C7: for every dispatched event, if a handler with `filter=True`
returns a truthy value, then no handler later in the ordered handler list
is invoked for that event (the dispatch outcome is that of the list
truncated right after the filter handler), and `_eventDone` still runs
afterwards. -/
theorem c7_filter_short_circuit (pre post : List HandlerS) (hf : HandlerS) (st : DSt)
    (hfil : hf.filter = true) (htr : truthyD (runVal hf.run) = true) :
    dispatchFull (pre ++ hf :: post) st = dispatchFull (pre ++ [hf]) st ∧
    ∀ s err, dispatchLoop (pre ++ [hf]) st none = .done s err →
      dispatchFull (pre ++ [hf]) st = .done (eventDoneA s err) := by
  constructor
  · unfold dispatchFull
    rw [dispatchLoop_break_of_filter hf hfil htr]
  · intro s err hdone
    unfold dispatchFull
    rw [hdone]

/-- C7 witness: a truthy-returning filter handler at a concrete input:
dispatching `[hfW, h6b]` equals dispatching `[hfW]` (the second handler
is never reached). -/
theorem c7_witness :
    (hfW.filter = true ∧ truthyD (runVal hfW.run) = true) ∧
    dispatchFull [hfW, h6b] st6 = dispatchFull [hfW] st6 :=
  ⟨⟨rfl, rfl⟩, (c7_filter_short_circuit [] [h6b] hfW st6 rfl rfl).1⟩

/-- C10: in the dispatcher, a handler raising a caught exception makes
the running `value` the truthy error triple; with `filter=True` on that
handler, every remaining handler is skipped even though the handler
returned no value. -/
theorem c10_error_triple_short_circuit (pre post : List HandlerS) (hf : HandlerS)
    (st : DSt) (err : Option Nat) (n : Nat)
    (hrun : hf.run = .exc (.other n)) (hfil : hf.filter = true) :
    (∃ s, dispatchStep hf st err = .ok s (some n) (.errV n)) ∧
    truthyD (.errV n) = true ∧
    dispatchFull (pre ++ hf :: post) st = dispatchFull (pre ++ [hf]) st := by
  refine ⟨?_, rfl, ?_⟩
  · simp only [dispatchStep, hrun]
    exact ⟨_, rfl⟩
  · unfold dispatchFull
    rw [dispatchLoop_break_of_filter hf hfil (by simp [runVal, hrun, truthyD])]

/-- C10 witness: a raising filter handler at a concrete input:
dispatching `[hfR, h6b]` equals dispatching `[hfR]`. -/
theorem c10_witness :
    (hfR.run = HRes.exc (.other 4) ∧ hfR.filter = true) ∧
    dispatchFull [hfR, h6b] st6 = dispatchFull [hfR] st6 :=
  ⟨⟨rfl, rfl⟩,
   (c10_error_triple_short_circuit [] [h6b] hfR st6 none 4 rfl rfl).2.2⟩

/-- C2 (amended): `_eventDone(event, error)` is a no-op whenever
`event.waitingHandlers` is nonzero; at zero it appends a `<Name>Done`
event exactly when `alert_done` is set and a `<Name>Success` event
exactly when its `error` argument is `None` and `event.success` is set,
and changes nothing else of the engine state. -/
theorem c2_eventDone_gate (st : DSt) (error : Option Nat) :
    (st.ev.waitingHandlers ≠ 0 → eventDoneA st error = st) ∧
    (st.ev.waitingHandlers = 0 →
      (eventDoneA st error).fired = st.fired
        ++ (if st.ev.alert_done then
              [Fired.doneF (st.ev.clsName ++ "Done") st.ev.channels] else [])
        ++ (if error = none ∧ st.ev.success then
              [Fired.successF (st.ev.clsName ++ "Success") st.ev.channels] else []) ∧
      (eventDoneA st error).ev = st.ev ∧
      (eventDoneA st error).tasks = st.tasks ∧
      (eventDoneA st error).invoked = st.invoked) := by
  constructor
  · intro h
    simp [eventDoneA, h]
  · intro h
    simp only [eventDoneA, h]
    split_ifs <;> simp_all

/-- C2 witness: the gate applied at concrete inputs — a state with one
waiting handler (no-op) and a state with none (fields as computed). -/
theorem c2_witness :
    (stC2a.ev.waitingHandlers ≠ 0 ∧ eventDoneA stC2a none = stC2a) ∧
    (stC2.ev.waitingHandlers = 0 ∧ (eventDoneA stC2 (some 3)).ev = stC2.ev) :=
  ⟨⟨by decide, (c2_eventDone_gate stC2a none).1 (by decide)⟩,
   ⟨by decide, ((c2_eventDone_gate stC2 (some 3)).2 (by decide)).2.1⟩⟩

/-- C2 counterexample: a dispatch that records a handler error (the
`Error` event is fired and `event.value.errors` is set) but also leaves a
waiting task; when the task completes, `_eventDone` is called with no
error argument and fires `<Name>Success` — so `Success` is fired for an
event whose dispatch recorded an error, contradicting the claim. -/
theorem c2_counterexample :
    stC2a.fired = [Fired.errorF (some 1)] ∧
    stC2a.ev.value.errors = true ∧
    stC2a.ev.waitingHandlers = 1 ∧
    stC2b.ev.waitingHandlers = 0 ∧
    stC2b.ev.value.errors = true ∧
    stC2b.fired = [Fired.errorF (some 1), Fired.successF "BoomSuccess" ["*"]] := by
  decide

/-- Helper: the Boolean key comparison agrees with the strict
lexicographic order on `(priority, filter)`. -/
theorem keyLtB_iff (a b : HandlerS) :
    keyLtB a b = true ↔ sortkey a < sortkey b := by
  simp only [keyLtB, sortkey, Prod.Lex.lt_iff, Bool.lt_iff,
    Bool.or_eq_true, Bool.and_eq_true, decide_eq_true_eq,
    Bool.not_eq_true']

/-- Helper: the negated key comparison is the reflexive descending
order. -/
theorem keyLtB_false_iff (a b : HandlerS) :
    keyLtB a b = false ↔ sortkey b ≤ sortkey a := by
  rw [← Bool.not_eq_true, keyLtB_iff]
  exact not_lt

/-- Helper: stable insertion produces a permutation of consing. -/
theorem insH_perm (a : HandlerS) (l : List HandlerS) :
    (insH a l).Perm (a :: l) := by
  induction l with
  | nil => exact List.Perm.refl _
  | cons b r ih =>
    simp only [insH]
    split
    · exact List.Perm.refl _
    · exact (List.Perm.cons b ih).trans (List.Perm.swap a b r)

/-- Helper: stable insertion preserves descending sortedness. -/
theorem insH_sorted (a : HandlerS) (l : List HandlerS)
    (hs : List.Sorted (fun x y => sortkey y ≤ sortkey x) l) :
    List.Sorted (fun x y => sortkey y ≤ sortkey x) (insH a l) := by
  induction l with
  | nil => simp [insH]
  | cons b r ih =>
    rw [List.sorted_cons] at hs
    obtain ⟨hb, hr⟩ := hs
    simp only [insH]
    split_ifs with h
    · rw [List.sorted_cons]
      refine ⟨?_, ?_⟩
      · intro x hx
        have hba : sortkey b < sortkey a := (keyLtB_iff b a).mp h
        rcases List.mem_cons.mp hx with hxb | hx'
        · rw [hxb]
          exact le_of_lt hba
        · exact le_trans (hb x hx') (le_of_lt hba)
      · rw [List.sorted_cons]
        exact ⟨hb, hr⟩
    · rw [List.sorted_cons]
      refine ⟨?_, ih hr⟩
      intro x hx
      rcases List.mem_cons.mp ((insH_perm a r).mem_iff.mp hx) with hxa | hx'
      · rw [hxa]
        exact (keyLtB_false_iff b a).mp (by simpa using h)
      · exact hb x hx'

/-- Helper: the fold underlying `sortH` permutes the accumulator and the
remaining input. -/
theorem sortH_fold_perm (l : List HandlerS) :
    ∀ acc : List HandlerS,
      (l.foldl (fun acc a => insH a acc) acc).Perm (acc ++ l) := by
  induction l with
  | nil => intro acc; simp
  | cons a r ih =>
    intro acc
    have h1 := ih (insH a acc)
    have h2 : (insH a acc ++ r).Perm (acc ++ a :: r) := by
      have := (insH_perm a acc).append_right r
      exact this.trans List.perm_middle.symm
    simpa using h1.trans h2

/-- Helper: the fold underlying `sortH` preserves descending
sortedness. -/
theorem sortH_fold_sorted (l : List HandlerS) :
    ∀ acc : List HandlerS,
      List.Sorted (fun x y => sortkey y ≤ sortkey x) acc →
      List.Sorted (fun x y => sortkey y ≤ sortkey x)
        (l.foldl (fun acc a => insH a acc) acc) := by
  induction l with
  | nil => intro acc h; simpa using h
  | cons a r ih =>
    intro acc h
    exact ih (insH a acc) (insH_sorted a acc h)

/-- C6 (amended): the dispatcher invokes the resolved handlers in
descending `(priority, filter)` order — the sorted list is a permutation
of the handler-set enumeration and is sorted by descending `_sortkey`.
Which of two equal-key handlers comes first is the enumeration order of
the underlying set, not a function of the handler set (see the
counterexample). -/
theorem c6_descending_key_order (l : List HandlerS) :
    (sortH l).Perm l ∧
    List.Sorted (fun a b => sortkey b ≤ sortkey a) (sortH l) := by
  constructor
  · simpa using sortH_fold_perm l []
  · exact sortH_fold_sorted l [] (by simp)

/-- C1 (amended): the equality between `event.waitingHandlers` and the
number of registered tasks carrying the event is established by
`_dispatcher`'s registration of a generator return and preserved by the
task steps that yield `None`, yield a non-null value, or exhaust a
top-level task; but the nested-spawn step increments `waitingHandlers`
while only replacing one task by another, and the exception step removes
the task without decrementing `waitingHandlers`, so each of those two
steps leaves `waitingHandlers` one above the task count. -/
theorem c1_waitingHandlers_vs_tasks (st : DSt) (fuel gid g : Nat)
    (parent : Option Nat) (rest crest : List GStep) (v : Val) (k : ExcK) :
    (TaskT.pair g ∉ st.tasks →
      (postStep (.genV g) st).ev.waitingHandlers = st.ev.waitingHandlers + 1 ∧
      eventTaskCount (postStep (.genV g) st) = eventTaskCount st + 1) ∧
    (st.gens gid = GStep.nil :: rest →
      (processTaskA (fuel + 1) gid parent st).ev.waitingHandlers =
        st.ev.waitingHandlers ∧
      (processTaskA (fuel + 1) gid parent st).tasks = st.tasks) ∧
    (st.gens gid = GStep.val v :: rest →
      (processTaskA (fuel + 1) gid parent st).ev.waitingHandlers =
        st.ev.waitingHandlers ∧
      (processTaskA (fuel + 1) gid parent st).tasks = st.tasks) ∧
    (st.gens gid = [] → TaskT.pair gid ∈ st.tasks →
      st.ev.waitingHandlers = (eventTaskCount st : Int) →
      (processTaskA (fuel + 1) gid none st).ev.waitingHandlers =
        (eventTaskCount (processTaskA (fuel + 1) gid none st) : Int)) ∧
    (st.gens gid = GStep.exc k :: rest → TaskT.pair gid ∈ st.tasks →
      (processTaskA (fuel + 1) gid parent st).ev.waitingHandlers =
        st.ev.waitingHandlers ∧
      eventTaskCount (processTaskA (fuel + 1) gid parent st) =
        eventTaskCount st - 1) ∧
    (st.gens gid = GStep.gen g :: rest → g ≠ gid → st.gens g = GStep.nil :: crest →
      TaskT.pair gid ∈ st.tasks → TaskT.triple g gid ∉ st.tasks →
      (processTaskA (fuel + 2) gid parent st).ev.waitingHandlers =
        st.ev.waitingHandlers + 1 ∧
      eventTaskCount (processTaskA (fuel + 2) gid parent st) =
        eventTaskCount st) := by
  refine ⟨?_, ?_, ?_, ?_, ?_, ?_⟩
  · intro hg
    simp [postStep, registerTaskA, eventTaskCount, hg]
  · intro hnil
    simp [processTaskA, hnil]
  · intro hval
    simp [processTaskA, hval]
  · intro hex hmem hinv
    have hlen : (st.tasks.erase (TaskT.pair gid)).length = st.tasks.length - 1 :=
      List.length_erase_of_mem hmem
    have hpos : 1 ≤ st.tasks.length := List.length_pos.mpr (by
      intro hn
      rw [hn] at hmem
      exact (List.not_mem_nil _ hmem))
    simp only [processTaskA, hex, unregisterTaskA, eventTaskCount] at *
    split_ifs with h0
    · simp only [eventDoneA, informA, eventTaskCount]
      split_ifs <;>
        · simp only [hlen]
          omega
    · simp only [hlen]
      omega
  · intro hexc hmem
    have hlen : (st.tasks.erase (TaskT.pair gid)).length = st.tasks.length - 1 :=
      List.length_erase_of_mem hmem
    simp only [processTaskA, hexc, unregisterTaskA, informA, fireErrorA,
      fireFailureA, eventTaskCount]
    split_ifs <;> simp [hlen]
  · intro hgen hne hchild hmem hfresh
    have hmem' : TaskT.pair gid ∈ st.tasks ++ [TaskT.triple g gid] :=
      List.mem_append_left _ hmem
    have hlen : ((st.tasks ++ [TaskT.triple g gid]).erase (TaskT.pair gid)).length
        = (st.tasks ++ [TaskT.triple g gid]).length - 1 :=
      List.length_erase_of_mem hmem'
    have hstep : processTaskA (fuel + 2) gid parent st
        = processTaskA (fuel + 1) g none
            { st with
              ev.waitingHandlers := st.ev.waitingHandlers + 1,
              gens := fun kk => if kk = gid then rest else st.gens kk,
              tasks := (st.tasks ++ [TaskT.triple g gid]).erase (TaskT.pair gid) } := by
      simp [processTaskA, hgen, registerTaskA, unregisterTaskA, hfresh]
    rw [hstep]
    simp [processTaskA, hne, hchild, eventTaskCount, hlen, List.length_append]

/-- C1 witness: the theorem applied at concrete states covering each
preserved branch and the two violating branches. -/
theorem c1_witness :
    ((postStep (.genV 0) st6).ev.waitingHandlers = st6.ev.waitingHandlers + 1 ∧
      eventTaskCount (postStep (.genV 0) st6) = eventTaskCount st6 + 1) ∧
    (processTaskA 1 0 none stW2).tasks = stW2.tasks ∧
    (processTaskA 1 0 none stW3).tasks = stW3.tasks ∧
    (processTaskA 1 0 none stW4).ev.waitingHandlers =
      (eventTaskCount (processTaskA 1 0 none stW4) : Int) ∧
    eventTaskCount (processTaskA 1 0 none stC1) = eventTaskCount stC1 - 1 ∧
    (processTaskA 2 0 none stW5).ev.waitingHandlers =
      stW5.ev.waitingHandlers + 1 :=
  ⟨(c1_waitingHandlers_vs_tasks st6 0 0 0 none [] [] { truthy := true, data := 1 }
      (.other 7)).1 (by decide),
   ((c1_waitingHandlers_vs_tasks stW2 0 0 0 none [] [] { truthy := true, data := 1 }
      (.other 7)).2.1 rfl).2,
   ((c1_waitingHandlers_vs_tasks stW3 0 0 0 none [] []
      { truthy := true, data := 1 } (.other 7)).2.2.1 rfl).2,
   (c1_waitingHandlers_vs_tasks stW4 0 0 0 none [] [] { truthy := true, data := 1 }
      (.other 7)).2.2.2.1 rfl (by decide) (by decide),
   ((c1_waitingHandlers_vs_tasks stC1 0 0 0 none [] [] { truthy := true, data := 1 }
      (.other 7)).2.2.2.2.1 rfl (by decide)).2,
   ((c1_waitingHandlers_vs_tasks stW5 0 0 1 none [] [] { truthy := true, data := 1 }
      (.other 7)).2.2.2.2.2 rfl (by decide) rfl (by decide) (by decide)).1⟩

/-- C1 counterexample: a state satisfying the claimed equality (one
waiting handler, one registered task carrying the event) in which the
task's generator raises: after the `processTask` step the task is gone
but `waitingHandlers` is still 1, so the claimed equality fails on the
exception step. -/
theorem c1_counterexample :
    stC1.ev.waitingHandlers = (eventTaskCount stC1 : Int) ∧
    stC1a.ev.waitingHandlers = 1 ∧
    eventTaskCount stC1a = 0 := by
  decide

/-- C4: `fire(event, *channels)` resolves the effective channel tuple as
the explicit argument when non-empty, else the event's own `channels`
when set, else the firing component's channel, else `("*",)`; it binds a
fresh `Value` to the event, appends exactly one `(event, channels)` entry
to the root's queue (the caller's own queue is untouched), and invokes no
handler. -/
theorem c4_fire_event (ev : EventS) (chans : List String) (st : FireSt) :
    (chans ≠ [] → (fireEventM ev chans st).1.channels = chans) ∧
    (chans = [] → ev.channels ≠ [] →
      (fireEventM ev chans st).1.channels = ev.channels) ∧
    (chans = [] → ev.channels = [] → ∀ c, st.selfChannel = some c →
      (fireEventM ev chans st).1.channels = [c]) ∧
    (chans = [] → ev.channels = [] → st.selfChannel = none →
      (fireEventM ev chans st).1.channels = ["*"]) ∧
    (fireEventM ev chans st).1.value = freshValue ev.eid ∧
    (fireEventM ev chans st).2.rootQueue =
      st.rootQueue ++ [(ev.eid, (fireEventM ev chans st).1.channels)] ∧
    (fireEventM ev chans st).2.selfQueue = st.selfQueue ∧
    (fireEventM ev chans st).2.selfChannel = st.selfChannel ∧
    (fireEventM ev chans st).2.invoked = st.invoked := by
  refine ⟨?_, ?_, ?_, ?_, rfl, rfl, rfl, rfl, rfl⟩
  · intro h
    simp [fireEventM, List.isEmpty_iff, h]
  · intro h h2
    simp [fireEventM, List.isEmpty_iff, h, h2]
  · intro h h2 c hc
    simp [fireEventM, List.isEmpty_iff, h, h2, hc]
  · intro h h2 hc
    simp [fireEventM, List.isEmpty_iff, h, h2, hc]

/-- C4 witness: the four resolution cases and the queue append at
concrete inputs. -/
theorem c4_witness :
    (fireEventM evW4a ["c1"] stF1).1.channels = ["c1"] ∧
    (fireEventM evW4b [] stF1).1.channels = ["e1", "e2"] ∧
    (fireEventM evW4a [] stF1).1.channels = ["x"] ∧
    (fireEventM evW4a [] stF2).1.channels = ["*"] ∧
    (fireEventM evW4a [] stF2).2.rootQueue =
      stF2.rootQueue ++ [(evW4a.eid, (fireEventM evW4a [] stF2).1.channels)] ∧
    (fireEventM evW4a [] stF1).2.selfQueue = stF1.selfQueue :=
  ⟨(c4_fire_event evW4a ["c1"] stF1).1 (by decide),
   (c4_fire_event evW4b [] stF1).2.1 rfl (by decide),
   (c4_fire_event evW4a [] stF1).2.2.1 rfl rfl "x" rfl,
   (c4_fire_event evW4a [] stF2).2.2.2.1 rfl rfl rfl,
   (c4_fire_event evW4a [] stF2).2.2.2.2.2.1,
   (c4_fire_event evW4a [] stF1).2.2.2.2.2.2.1⟩

/-- C6 counterexample: two handlers with equal `(priority, filter)` keys
and distinct identities form the same handler set in either enumeration
order, yet the sorted list — and with it the dispatcher's invocation
order — differs between the two enumerations, so the invocation order is
not a deterministic function of the handler set. -/
theorem c6_counterexample :
    sortkey h6a = sortkey h6b ∧ h6a ≠ h6b ∧
    List.Perm [h6a, h6b] [h6b, h6a] ∧
    outInvoked (dispatchFull (sortH [h6a, h6b]) st6) = [1, 2] ∧
    outInvoked (dispatchFull (sortH [h6b, h6a]) st6) = [2, 1] := by
  exact ⟨rfl, by decide, List.Perm.swap h6b h6a [], by decide, by decide⟩

/-- Helper: firing a list of events one by one appends it to the queue
and to the fired history, and changes nothing else. -/
theorem foldl_fireB (l : List QEnt) (s : BSt) :
    l.foldl (fun s q => fireB q s) s =
      { s with queue := s.queue ++ l, firedAll := s.firedAll ++ l } := by
  induction l generalizing s with
  | nil => simp
  | cons q r ih =>
    rw [List.foldl_cons, ih]
    simp [fireB]

/-- Helper: a handler list with no host-fatal raiser never propagates out
of the dispatcher loop. -/
theorem dispatchLoop_ok_of_no_fatal (hs : List HandlerS) :
    ∀ (st : DSt) (err : Option Nat), (∀ gh ∈ hs, fatalRun gh.run = false) →
      ∃ s e, dispatchLoop hs st err = .done s e := by
  induction hs with
  | nil =>
    intro st err _
    exact ⟨st, err, rfl⟩
  | cons h r ih =>
    intro st err hnf
    obtain ⟨s, e, hstep⟩ := dispatchStep_ok h st err (hnf h (List.mem_cons_self h r))
    rw [dispatchLoop, hstep]
    by_cases hb : (truthyD (runVal h.run) && h.filter) = true
    · exact ⟨postStep (runVal h.run) s, e, by simp [hb]⟩
    · obtain ⟨s2, e2, hrec⟩ := ih (postStep (runVal h.run) s) e
        (fun gh hgh => hnf gh (List.mem_cons_of_mem h hgh))
      exact ⟨s2, e2, by simp [hb, hrec]⟩

/-- C5: a `KeyboardInterrupt` or `SystemExit` raised by a handler is
re-raised out of the dispatcher (no `Error` event is fired for it, the
event's value is untouched); likewise for a tick callable inside `tick`.
Any other handler exception is caught: `event.value.errors` is set, a
`<Name>Failure` event is fired on the event's channels exactly when
`event.failure` is set, an `Error` event carrying the handler follows,
and the loop continues — a handler list with no host-fatal raiser never
propagates an exception. -/
theorem c5_fatal_reraise_error_conversion
    (hI hX h : HandlerS) (f : TickF) (hs : List HandlerS)
    (st : DSt) (bst : BSt) (err : Option Nat) (n : Nat)
    (HI : hI.run = .exc .interrupt) (HX : hX.run = .exc .exit)
    (HO : h.run = .exc (.other n))
    (HN : ∀ gh ∈ hs, fatalRun gh.run = false)
    (HF : f.raises = some .interrupt) :
    (∃ s, dispatchStep hI st err = .fatal .interrupt s ∧ s.fired = st.fired ∧
      s.ev.value = st.ev.value) ∧
    (∃ s, dispatchStep hX st err = .fatal .exit s ∧ s.fired = st.fired ∧
      s.ev.value = st.ev.value) ∧
    (∃ s, dispatchStep h st err = .ok s (some n) (.errV n) ∧
      s.ev.value.errors = true ∧
      s.fired = st.fired
        ++ (if st.ev.failure then
              [Fired.failureF (st.ev.clsName ++ "Failure") st.ev.channels] else [])
        ++ [Fired.errorF (some h.hid)]) ∧
    (∃ s, runTickOne f bst = .fatal .interrupt s ∧
      s.queue = bst.queue ++ f.enq ∧ s.firedAll = bst.firedAll ++ f.enq) ∧
    (∃ s e, dispatchLoop hs st err = .done s e) := by
  refine ⟨?_, ?_, ?_, ?_, dispatchLoop_ok_of_no_fatal hs st err HN⟩
  · exact ⟨stepPre hI st, by simp [dispatchStep, HI], rfl, rfl⟩
  · exact ⟨stepPre hX st, by simp [dispatchStep, HX], rfl, rfl⟩
  · by_cases hf : st.ev.failure
    · refine ⟨fireErrorA (some h.hid)
        (fireFailureA { stepPre h st with ev.value.errors := true }), ?_, rfl, ?_⟩
      · simp [dispatchStep, stepPre, HO, hf]
      · simp [fireErrorA, fireFailureA, stepPre, hf]
    · refine ⟨fireErrorA (some h.hid)
        { stepPre h st with ev.value.errors := true }, ?_, rfl, ?_⟩
      · simp [dispatchStep, stepPre, HO, hf]
      · simp [fireErrorA, stepPre, hf]
  · have hw : runTickOne f bst = .fatal .interrupt
        { bst with queue := bst.queue ++ f.enq,
                   firedAll := bst.firedAll ++ f.enq,
                   log := bst.log ++ [Act.runTick f.tid] } := by
      simp [runTickOne, HF, foldl_fireB]
    exact ⟨_, hw, rfl, rfl⟩

/-- C5 witness: the theorem applied at concrete inputs — an interrupting
handler, an interrupting tick callable, and a fatal-free handler list. -/
theorem c5_witness :
    (∃ s, dispatchStep hIW st6 none = .fatal .interrupt s ∧ s.fired = st6.fired ∧
      s.ev.value = st6.ev.value) ∧
    (∃ s, runTickOne tickFW stC3 = .fatal .interrupt s ∧
      s.queue = stC3.queue ++ tickFW.enq ∧
      s.firedAll = stC3.firedAll ++ tickFW.enq) ∧
    (∃ s e, dispatchLoop [h6a] st6 none = .done s e) :=
  ⟨(c5_fatal_reraise_error_conversion hIW hXW hRaise tickFW [h6a] st6 stC3 none 3
      rfl rfl rfl (by decide) rfl).1,
   (c5_fatal_reraise_error_conversion hIW hXW hRaise tickFW [h6a] st6 stC3 none 3
      rfl rfl rfl (by decide) rfl).2.2.2.1,
   (c5_fatal_reraise_error_conversion hIW hXW hRaise tickFW [h6a] st6 stC3 none 3
      rfl rfl rfl (by decide) rfl).2.2.2.2⟩

/-- C8 (amended): every completed call to `addHandler`, `removeHandler`,
`registerChild` or `unregisterChild` leaves the root's cache empty, and a
lookup on an empty cache recomputes the sorted handler list from the
current tree; a `removeHandler` (or `unregisterChild`) call that raises
`KeyError` does not clear the cache (see the counterexample for a raising
`removeHandler` that has already mutated the registry). -/
theorem c8_cache_clearing (st : TreeSt) (path : List Nat) (h m : HandlerS)
    (evArg : Option String) (child : CompNode) (i : Nat)
    (name : String) (chans : List String) :
    (addHandlerAt path h st).cache = [] ∧
    (registerChildAt path child st).cache = [] ∧
    ((removeHandlerAt path m evArg st).2 = true →
      (removeHandlerAt path m evArg st).1.cache = []) ∧
    ((unregisterChildAt path i st).2 = true →
      (unregisterChildAt path i st).1.cache = []) ∧
    (st.cache = [] →
      (resolveHandlers st.root st.cache name chans).1 =
        sortH (chans.flatMap (fun c => getHandlersN name c st.root))) := by
  refine ⟨rfl, rfl, ?_, ?_, ?_⟩
  · intro hok
    simp only [removeHandlerAt] at hok ⊢
    simp [hok]
  · intro hok
    unfold unregisterChildAt at hok ⊢
    by_cases hr2 : (updateAtR path (removeChildIdx i) st.root).2 = true
    · simp [hr2]
    · simp [hr2] at hok
  · intro hc
    simp [resolveHandlers, hc]

/-- C8 witness: the cache is cleared by a concrete `addHandler` and a
concrete completing `removeHandler`, and a lookup on an empty cache
recomputes from the tree. -/
theorem c8_witness :
    (addHandlerAt [] hC8 stC8).cache = [] ∧
    ((removeHandlerAt [] hC8 (some "a") stC8).2 = true ∧
      (removeHandlerAt [] hC8 (some "a") stC8).1.cache = []) ∧
    (resolveHandlers stC8e.root stC8e.cache "a" ["*"]).1 =
      sortH (["*"].flatMap (fun c => getHandlersN "a" c stC8e.root)) :=
  ⟨(c8_cache_clearing stC8 [] hC8 hC8 (some "a") rootC8 0 "a" ["*"]).1,
   ⟨by decide,
    (c8_cache_clearing stC8 [] hC8 hC8 (some "a") rootC8 0 "a" ["*"]).2.2.1
      (by decide)⟩,
   (c8_cache_clearing stC8e [] hC8 hC8 (some "a") rootC8 0 "a" ["*"]).2.2.2.2 rfl⟩

/-- C8 counterexample: `removeHandler(hC8)` on a registry holding `hC8`
only under `"a"` removes it from the `"a"` bucket, then raises `KeyError`
on `"b"` — the call mutated the registry but did not clear the cache, and
a subsequent lookup still returns the removed handler from the stale
cache while a fresh computation over the tree returns nothing. -/
theorem c8_counterexample :
    stC8a.2 = false ∧
    stC8a.1.cache = [(("a", ["*"]), [hC8])] ∧
    stC8a.1.root.buckets = [] ∧
    (resolveHandlers stC8a.1.root stC8a.1.cache "a" ["*"]).1 = [hC8] ∧
    sortH (["*"].flatMap (fun c => getHandlersN "a" c stC8a.1.root)) = [] := by
  decide

/-- Helper: the tick-callable phase, when it returns normally, appends
exactly the callables' log entries and queue contributions, and leaves
every other field unchanged. -/
theorem runTicksPhase_ok_eq (fs : List TickF) :
    ∀ s s' : BSt, runTicksPhase fs s = .ok s' →
      s' = { s with queue := s.queue ++ ticksEnqD fs,
                    firedAll := s.firedAll ++ ticksEnqD fs,
                    log := s.log ++ ticksLogD fs } := by
  induction fs with
  | nil =>
    intro s s' h
    simp only [runTicksPhase] at h
    cases h
    simp [ticksEnqD, ticksLogD]
  | cons f r ih =>
    intro s s' h
    rcases hr : f.raises with _ | (_ | _ | n)
    · have hstep : runTickOne f s = .ok
          { s with queue := s.queue ++ f.enq, firedAll := s.firedAll ++ f.enq,
                   log := s.log ++ [Act.runTick f.tid] } := by
        simp [runTickOne, hr, foldl_fireB]
      simp only [runTicksPhase, hstep] at h
      rw [ih _ _ h]
      simp [ticksEnqD, tickEnqD, ticksLogD, hr]
    · have hstep : ∃ s1, runTickOne f s = .fatal .interrupt s1 := by
        simp [runTickOne, hr]
      obtain ⟨s1, hs1⟩ := hstep
      simp [runTicksPhase, hs1] at h
    · have hstep : ∃ s1, runTickOne f s = .fatal .exit s1 := by
        simp [runTickOne, hr]
      obtain ⟨s1, hs1⟩ := hstep
      simp [runTicksPhase, hs1] at h
    · have hstep : runTickOne f s = .ok
          { s with queue := s.queue ++ (f.enq ++ [QEnt.errorQ n]),
                   firedAll := s.firedAll ++ (f.enq ++ [QEnt.errorQ n]),
                   log := s.log ++ [Act.runTick f.tid] } := by
        simp only [runTickOne, hr]
        rw [foldl_fireB]
        simp [fireB]
      simp only [runTicksPhase, hstep] at h
      rw [ih _ _ h]
      simp [ticksEnqD, tickEnqD, ticksLogD, hr]

/-- Helper: one task step appends the task's log entry and queue
contribution and possibly drops the task from the set. -/
theorem stepTaskB_eq (t : BTask) (s : BSt) :
    stepTaskB t s =
      { s with queue := s.queue ++ t.enq, firedAll := s.firedAll ++ t.enq,
               log := s.log ++ [Act.stepTask t.bid],
               tasks := if t.survive then s.tasks else s.tasks.erase t } := by
  by_cases hs : t.survive <;> simp [stepTaskB, foldl_fireB, hs]

/-- Helper: the task phase appends exactly the snapshot's log entries and
queue contributions; the task set afterwards is some list, and every
other field is unchanged. -/
theorem runTasksPhase_eq (ts : List BTask) :
    ∀ s : BSt, ∃ tasks' : List BTask,
      runTasksPhase ts s =
        { s with queue := s.queue ++ tasksEnqD ts,
                 firedAll := s.firedAll ++ tasksEnqD ts,
                 log := s.log ++ tasksLogD ts,
                 tasks := tasks' } := by
  induction ts with
  | nil =>
    intro s
    exact ⟨s.tasks, by simp [runTasksPhase, tasksEnqD, tasksLogD]⟩
  | cons t r ih =>
    intro s
    obtain ⟨tk, htk⟩ := ih (stepTaskB t s)
    refine ⟨tk, ?_⟩
    rw [runTasksPhase, htk, stepTaskB_eq]
    simp [tasksEnqD, tasksLogD]

/-- Helper: when the tick-callable phase completes, `tick()` continues
with the task phase and the flush-or-sleep decision. -/
theorem tickB_eq_of_phase1 (st s1 : BSt)
    (h : runTicksPhase st.ticks st = .ok s1) :
    tickB st =
      (let s2 := runTasksPhase s1.tasks s1
       if s2.queue.isEmpty then .ok { s2 with log := s2.log ++ [Act.sleepT] }
       else .ok (flushB s2)) := by
  unfold tickB
  rw [h]

/-- Helper: `tick()` either propagates a host-fatal exception from a tick
callable, or returns the state computed from the three phases: the tick
logs, the task logs, and then exactly one of the flush or the sleep,
decided by the queue contents at the check; the queue is empty afterwards
and the control fields are untouched. -/
theorem tickB_eq_cases (st : BSt) :
    (∃ k s1, tickB st = .fatal k s1) ∨
    ∃ tasks', tickB st =
      .ok { st with queue := [],
                    firedAll := st.firedAll ++ ticksEnqD st.ticks ++ tasksEnqD st.tasks,
                    log := st.log ++ ticksLogD st.ticks ++ tasksLogD st.tasks
                      ++ (if (queueAtCheck st).isEmpty then [Act.sleepT]
                          else Act.flushQ :: (queueAtCheck st).map Act.dispatchQ),
                    tasks := tasks' } := by
  rcases hph : runTicksPhase st.ticks st with s1 | ⟨k, s1⟩
  · right
    have h1 := runTicksPhase_ok_eq st.ticks st s1 hph
    subst h1
    obtain ⟨tk, h2⟩ := runTasksPhase_eq _ _
    refine ⟨tk, ?_⟩
    rw [tickB_eq_of_phase1 st _ hph, h2]
    by_cases hq : (queueAtCheck st).isEmpty
    · have hqe : st.queue = [] ∧ ticksEnqD st.ticks = [] ∧ tasksEnqD st.tasks = [] := by
        simpa [queueAtCheck, List.append_assoc, List.append_eq_nil] using hq
      simp [flushB, queueAtCheck, hq, hqe.1, hqe.2.1, hqe.2.2]
    · have hqc : ((st.queue ++ ticksEnqD st.ticks) ++ tasksEnqD st.tasks).isEmpty = false := by
        rw [← Bool.not_eq_true]
        simpa [queueAtCheck, List.append_assoc] using hq
      have hcond : ¬(st.queue = [] ∧ ticksEnqD st.ticks = [] ∧ tasksEnqD st.tasks = []) := by
        intro hc
        apply hq
        simp [queueAtCheck, hc.1, hc.2.1, hc.2.2]
      simp [flushB, queueAtCheck, hq, hqc, hcond, List.append_assoc]
  · exact .inl ⟨k, s1, by unfold tickB; rw [hph]⟩

/-- Helper: a normally-returning `tick()` leaves exactly the state of the
phase decomposition. -/
theorem tickB_ok_eq (st st' : BSt) (H : tickB st = .ok st') :
    ∃ tasks', st' =
      { st with queue := [],
                firedAll := st.firedAll ++ ticksEnqD st.ticks ++ tasksEnqD st.tasks,
                log := st.log ++ ticksLogD st.ticks ++ tasksLogD st.tasks
                  ++ (if (queueAtCheck st).isEmpty then [Act.sleepT]
                      else Act.flushQ :: (queueAtCheck st).map Act.dispatchQ),
                tasks := tasks' } := by
  rcases tickB_eq_cases st with ⟨k, s1, hf⟩ | ⟨tk, hok⟩
  · rw [hf] at H
    exact absurd H (by simp)
  · rw [hok] at H
    exact ⟨tk, by injection H with H'; exact H'.symm⟩

/-- Helper: the tick-callable phase log contains no flush or sleep
action. -/
theorem countP_isTerm_ticksLog (fs : List TickF) :
    (ticksLogD fs).countP isTerm = 0 := by
  simp [ticksLogD, List.countP_eq_zero, isTerm]

/-- Helper: the task phase log contains no flush or sleep action. -/
theorem countP_isTerm_tasksLog (ts : List BTask) :
    (tasksLogD ts).countP isTerm = 0 := by
  simp [tasksLogD, List.countP_eq_zero, isTerm]

/-- Helper: a normally-returning `tick()` preserves `running`, `taskH`
and the tick set, only appends to the fired history, and appends exactly
one terminal (flush-or-sleep) action to the log. -/
theorem tickB_ok_frame (s s' : BSt) (H : tickB s = .ok s') :
    s'.running = s.running ∧ s'.taskH = s.taskH ∧ s'.ticks = s.ticks ∧
    (∃ d, s'.firedAll = s.firedAll ++ d) ∧
    (∃ d, s'.log = s.log ++ d ∧ d.countP isTerm = 1) := by
  obtain ⟨tk, h⟩ := tickB_ok_eq s s' H
  subst h
  refine ⟨rfl, rfl, rfl,
    ⟨ticksEnqD s.ticks ++ tasksEnqD s.tasks, by simp⟩,
    ⟨ticksLogD s.ticks ++ tasksLogD s.tasks
      ++ (if (queueAtCheck s).isEmpty then [Act.sleepT]
          else Act.flushQ :: (queueAtCheck s).map Act.dispatchQ), by simp, ?_⟩⟩
  by_cases hq : (queueAtCheck s).isEmpty <;>
    simp [hq, List.countP_append, countP_isTerm_ticksLog, countP_isTerm_tasksLog,
      List.countP_cons, List.countP_eq_zero, isTerm]

/-- C3 (amended): `tick()` first runs every registered tick callable,
then advances every task registered at the start of the call, and then
performs exactly one of flush or sleep: it flushes when the queue is
non-empty at the check and sleeps for the 10 ms quantum (`TIMEOUT`)
exactly when the queue is empty at the check — regardless of whether the
tick set is empty (see the counterexample). -/
theorem c3_tick_order_and_sleep (st st' : BSt) (H : tickB st = .ok st') :
    st'.log = st.log ++ ticksLogD st.ticks ++ tasksLogD st.tasks
      ++ (if (queueAtCheck st).isEmpty then [Act.sleepT]
          else Act.flushQ :: (queueAtCheck st).map Act.dispatchQ) ∧
    ((if (queueAtCheck st).isEmpty then [Act.sleepT]
      else Act.flushQ :: (queueAtCheck st).map Act.dispatchQ) = [Act.sleepT]
        ↔ queueAtCheck st = []) ∧
    st'.queue = [] ∧ st'.running = st.running ∧ st'.taskH = st.taskH ∧
    TIMEOUT = 10 / 1000 := by
  obtain ⟨tk, h⟩ := tickB_ok_eq st st' H
  subst h
  refine ⟨by simp, ?_, rfl, rfl, rfl, by norm_num [TIMEOUT]⟩
  by_cases hq : (queueAtCheck st).isEmpty
  · simp [hq, List.isEmpty_iff.mp hq]
  · have : queueAtCheck st ≠ [] := by
      intro he
      rw [he] at hq
      exact hq rfl
    simp [hq, this]

/-- C3 witness: the phase decomposition applied at a concrete state (one
tick callable, empty queue): the tick ran and the call slept. -/
theorem c3_witness :
    tickB stC3 = .ok stC3r ∧
    stC3r.log = stC3.log ++ ticksLogD stC3.ticks ++ tasksLogD stC3.tasks
      ++ (if (queueAtCheck stC3).isEmpty then [Act.sleepT]
          else Act.flushQ :: (queueAtCheck stC3).map Act.dispatchQ) :=
  ⟨by decide, (c3_tick_order_and_sleep stC3 stC3r (by decide)).1⟩

/-- C3 counterexample: a state with a non-empty tick set and an empty
queue on which `tick()` sleeps — the claim says it must not sleep
there. -/
theorem c3_counterexample :
    stC3.ticks ≠ [] ∧ stC3.queue = [] ∧
    tickB stC3 = .ok stC3r ∧ Act.sleepT ∈ stC3r.log := by
  decide

/-- C9: `stop()` on a manager whose `running` flag is false returns with
the state unchanged; `stop` composed with `stop` equals a single `stop`;
and on a running manager it flips `running` to false, fires
`Stopped(self)`, performs exactly three `tick()` calls (three terminal
flush-or-sleep actions are appended to the log), and clears the
background task handle. -/
theorem c9_stop_idempotent (st st' : BSt) (H : stopB st = .ok st') :
    (st.running = false → st' = st) ∧
    stopB st' = .ok st' ∧
    (st.running = true →
      st'.running = false ∧ st'.taskH = none ∧
      (∃ d, st'.firedAll = st.firedAll ++ [QEnt.stoppedQ] ++ d) ∧
      (∃ d, st'.log = st.log ++ d ∧ d.countP isTerm = 3)) := by
  by_cases hr : st.running = true
  · unfold stopB at H
    rw [if_pos hr] at H
    split at H
    · exact absurd H (by simp)
    · rename_i s1 h1
      split at H
      · exact absurd H (by simp)
      · rename_i s2 h2
        split at H
        · exact absurd H (by simp)
        · rename_i s3 h3
          injection H with H'
          obtain ⟨f1r, f1t, _, ⟨d1, hd1⟩, ⟨e1, he1, hc1⟩⟩ := tickB_ok_frame _ _ h1
          obtain ⟨f2r, f2t, _, ⟨d2, hd2⟩, ⟨e2, he2, hc2⟩⟩ := tickB_ok_frame _ _ h2
          obtain ⟨f3r, f3t, _, ⟨d3, hd3⟩, ⟨e3, he3, hc3⟩⟩ := tickB_ok_frame _ _ h3
          have hrun : st'.running = false := by
            rw [← H']
            show s3.running = false
            rw [f3r, f2r, f1r]
            rfl
          refine ⟨fun hf => absurd hr (by simp [hf]), ?_, fun _ => ⟨hrun, ?_, ?_, ?_⟩⟩
          · unfold stopB
            rw [if_neg (by simp [hrun])]
          · rw [← H']
          · refine ⟨d1 ++ (d2 ++ d3), ?_⟩
            rw [← H']
            show s3.firedAll = _
            rw [hd3, hd2, hd1]
            simp [fireB]
          · refine ⟨e1 ++ (e2 ++ e3), ?_, ?_⟩
            · rw [← H']
              show s3.log = _
              rw [he3, he2, he1]
              simp [fireB]
            · simp [List.countP_append, hc1, hc2, hc3]
  · unfold stopB at H
    rw [if_neg hr] at H
    injection H with H'
    subst H'
    refine ⟨fun _ => rfl, ?_, fun hf => absurd hf hr⟩
    unfold stopB
    rw [if_neg hr]

/-- C9 witness: `stop()` on a concrete running manager, its idempotent
repetition, and the cleared task handle. -/
theorem c9_witness :
    stopB stW9 = .ok stW9r ∧ stopB stW9r = .ok stW9r ∧
    stW9r.taskH = none ∧ stW9r.running = false :=
  ⟨by decide,
   (c9_stop_idempotent stW9 stW9r (by decide)).2.1,
   ((c9_stop_idempotent stW9 stW9r (by decide)).2.2 rfl).2.1,
   ((c9_stop_idempotent stW9 stW9r (by decide)).2.2 rfl).1⟩

end Circuits
